import Mathlib

/-
Shallow embedding of the soroban multisig contract
(src/contracts/multi_sig/src/multisig.rs, types.rs, errors.rs).

Modelling choices:
- BytesN<32> signer identities and Address values are modelled as Nat
  (only equality on them is observed by the contract).
- u32 and u64 are modelled as Nat; u32 subtraction is modelled by
  truncated Nat subtraction (the contract only subtracts after guards or
  in corner states discussed at the relevant theorems).
- i128 amounts are modelled as Int.
- Instance storage is modelled field by field: the Signer(id) keys as a
  membership list, each per-id family as an association list, the
  Initialized key as a Bool, and the scalar keys as plain fields (every
  read of Threshold, SignerCount and Nonce in the source is guarded by
  require_initialized, after which those keys are always set, so their
  unwrap never fails; ProposalCount is read with unwrap_or(0)).
- The ProposalExecuted(id) and SignerChangeExecuted(id) keys are only
  ever written with the value true, and the source observes only their
  presence or unwrap_or(false); they are modelled as id lists.
- panic_with_error is modelled as Except.error (CallError.err e);
  a failed unwrap of a missing storage value is CallError.unwrapPanic;
  a failing external token transfer (a host trap that aborts the call)
  is CallError.transferFailed. The host applies calls atomically, so a
  call that errors leaves the persistent state untouched (stepOp below).
- env.ledger().timestamp() is an externally supplied argument now.
-/

namespace Multisig

inductive MultisigError where
  | NotInitialized
  | AlreadyInitialized
  | InvalidThreshold
  | EmptySignersList
  | DuplicateSigner
  | SignerNotFound
  | ThresholdExceedsSigners
  | InvalidNonce
  | UnknownSigner
  | ProposalNotFound
  | ProposalAlreadyExecuted
  | ProposalExpired
  | AlreadyApproved
  | InsufficientApprovals
  | InvalidProposal
  | SignerChangeNotFound
  | SignerChangeAlreadyExecuted
  | SignerChangeExpired
  | SignerChangeAlreadyApproved
  | InsufficientSignerChangeApprovals
  | InvalidExpiryTime
deriving DecidableEq, Repr

inductive CallError where
  | err (e : MultisigError)
  | unwrapPanic
  | transferFailed
deriving DecidableEq, Repr

structure Proposal where
  id : Nat
  proposer : Nat
  token_address : Nat
  recipient : Nat
  amount : Int
  reason : String
  created_at : Nat
  expires_at : Nat
  executed : Bool
deriving DecidableEq, Repr

structure ProposalApproval where
  signer : Nat
  approved_at : Nat
deriving DecidableEq, Repr

structure SignerChangeProposal where
  id : Nat
  proposer : Nat
  change_type : String
  signer : Nat
  created_at : Nat
  expires_at : Nat
  executed : Bool
deriving DecidableEq, Repr

structure SignerChangeApproval where
  signer : Nat
  approved_at : Nat
deriving DecidableEq, Repr

structure MState where
  initialized : Bool
  signerCount : Nat
  threshold : Nat
  nonce : Nat
  proposalCount : Nat
  signers : List Nat
  proposals : List (Nat × Proposal)
  proposalApprovals : List (Nat × List ProposalApproval)
  proposalExecuted : List Nat
  scProposals : List (Nat × SignerChangeProposal)
  scApprovals : List (Nat × List SignerChangeApproval)
  scExecuted : List Nat
deriving DecidableEq, Repr

/-- Fresh contract storage: no key present. -/
def emptyState : MState :=
  { initialized := false, signerCount := 0, threshold := 0, nonce := 0,
    proposalCount := 0, signers := [], proposals := [], proposalApprovals := [],
    proposalExecuted := [], scProposals := [], scApprovals := [], scExecuted := [] }

/-- Lookup in an association list keyed by id (storage get for a keyed family). -/
def getKey {α : Type} : List (Nat × α) → Nat → Option α
  | [], _ => none
  | (k, v) :: t, i => if k = i then some v else getKey t i

/-- Overwriting insert in an association list (storage set for a keyed family). -/
def setKey {α : Type} : List (Nat × α) → Nat → α → List (Nat × α)
  | [], i, v => [(i, v)]
  | (k, w) :: t, i, v => if k = i then (i, v) :: t else (k, w) :: setKey t i v

/-- Storage set of Signer(id) to true: membership insert. -/
def setSigner (l : List Nat) (i : Nat) : List Nat :=
  if i ∈ l then l else i :: l

/-- Storage remove of Signer(id): membership delete. -/
def removeSigner (l : List Nat) (i : Nat) : List Nat :=
  l.filter (fun x => x ≠ i)

/-- Pairwise duplicate scan over the signer list, as in the nested loops of
the source initialization. -/
def hasDuplicate : List Nat → Bool
  | [] => false
  | x :: t => decide (x ∈ t) || hasDuplicate t

def MIN_EXPIRY_SECONDS : Nat := 3600
def MAX_EXPIRY_SECONDS : Nat := 2592000

/-- Embeds the initialization entry point of multisig.rs (the source name
of this function is the storage-setup entry point; renamed here). -/
def initContract (s : MState) (signers : List Nat) (threshold : Nat) :
    Except CallError MState :=
  if s.initialized then .error (.err .AlreadyInitialized)
  else if signers.length = 0 then .error (.err .EmptySignersList)
  else if threshold = 0 then .error (.err .InvalidThreshold)
  else if signers.length < threshold then .error (.err .ThresholdExceedsSigners)
  else if hasDuplicate signers then .error (.err .DuplicateSigner)
  else .ok { s with
    initialized := true,
    signerCount := signers.length,
    threshold := threshold,
    nonce := 0,
    signers := signers.foldl setSigner s.signers }

/-- Embeds propose_signer_change. -/
def propose_signer_change (s : MState) (now : Nat) (proposer : Nat)
    (change_type : String) (signer : Nat) (expires_in_seconds : Nat) :
    Except CallError (Nat × MState) :=
  if !s.initialized then .error (.err .NotInitialized)
  else if expires_in_seconds < MIN_EXPIRY_SECONDS then .error (.err .InvalidExpiryTime)
  else if MAX_EXPIRY_SECONDS < expires_in_seconds then .error (.err .InvalidExpiryTime)
  else if proposer ∉ s.signers then .error (.err .UnknownSigner)
  else if change_type ≠ "add" ∧ change_type ≠ "remove" then .error (.err .InvalidProposal)
  else if change_type = "add" ∧ signer ∈ s.signers then .error (.err .DuplicateSigner)
  else if change_type = "remove" ∧ signer ∉ s.signers then .error (.err .SignerNotFound)
  else if change_type = "remove" ∧ s.signerCount - 1 < s.threshold then
    .error (.err .ThresholdExceedsSigners)
  else
    let proposal_id := s.proposalCount + 1
    let prop : SignerChangeProposal :=
      { id := proposal_id, proposer := proposer, change_type := change_type,
        signer := signer, created_at := now, expires_at := now + expires_in_seconds,
        executed := false }
    .ok (proposal_id, { s with
      proposalCount := proposal_id,
      scProposals := setKey s.scProposals proposal_id prop,
      scApprovals := setKey s.scApprovals proposal_id [] })

/-- Embeds approve_signer_change. -/
def approve_signer_change (s : MState) (now : Nat) (proposal_id : Nat)
    (approver : Nat) : Except CallError MState :=
  if !s.initialized then .error (.err .NotInitialized)
  else if approver ∉ s.signers then .error (.err .UnknownSigner)
  else match getKey s.scProposals proposal_id with
  | none => .error (.err .SignerChangeNotFound)
  | some prop =>
    if proposal_id ∈ s.scExecuted then .error (.err .SignerChangeAlreadyExecuted)
    else if prop.expires_at < now then .error (.err .SignerChangeExpired)
    else if ((getKey s.scApprovals proposal_id).getD []).any
        (fun a => a.signer = approver) then
      .error (.err .SignerChangeAlreadyApproved)
    else .ok { s with
      scApprovals := setKey s.scApprovals proposal_id
        (((getKey s.scApprovals proposal_id).getD []) ++
          [{ signer := approver, approved_at := now }]) }

/-- Embeds execute_signer_change. -/
def execute_signer_change (s : MState) (now : Nat) (proposal_id : Nat) :
    Except CallError MState :=
  if !s.initialized then .error (.err .NotInitialized)
  else match getKey s.scProposals proposal_id with
  | none => .error (.err .SignerChangeNotFound)
  | some prop =>
    if proposal_id ∈ s.scExecuted then .error (.err .SignerChangeAlreadyExecuted)
    else if prop.expires_at < now then .error (.err .SignerChangeExpired)
    else if ((getKey s.scApprovals proposal_id).getD []).length < s.threshold then
      .error (.err .InsufficientSignerChangeApprovals)
    else .ok { s with
      signers :=
        (if prop.change_type = "add" then setSigner s.signers prop.signer
         else if prop.change_type = "remove" then removeSigner s.signers prop.signer
         else s.signers),
      signerCount :=
        (if prop.change_type = "add" then s.signerCount + 1
         else if prop.change_type = "remove" then s.signerCount - 1
         else s.signerCount),
      scExecuted := proposal_id :: s.scExecuted,
      scProposals := setKey s.scProposals proposal_id { prop with executed := true } }

/-- Embeds the threshold getter. -/
def threshold (s : MState) : Except CallError Nat :=
  if !s.initialized then .error (.err .NotInitialized) else .ok s.threshold

/-- Embeds the signer_count getter. -/
def signer_count (s : MState) : Except CallError Nat :=
  if !s.initialized then .error (.err .NotInitialized) else .ok s.signerCount

/-- Embeds the nonce getter. -/
def nonce (s : MState) : Except CallError Nat :=
  if !s.initialized then .error (.err .NotInitialized) else .ok s.nonce

/-- Embeds is_signer. -/
def is_signer (s : MState) (signer : Nat) : Except CallError Bool :=
  if !s.initialized then .error (.err .NotInitialized)
  else .ok (decide (signer ∈ s.signers))

/-- Embeds create_proposal. -/
def create_proposal (s : MState) (now : Nat) (proposer : Nat)
    (token_address : Nat) (recipient : Nat) (amount : Int) (reason : String)
    (expires_in_seconds : Nat) : Except CallError (Nat × MState) :=
  if !s.initialized then .error (.err .NotInitialized)
  else if expires_in_seconds < MIN_EXPIRY_SECONDS then .error (.err .InvalidExpiryTime)
  else if MAX_EXPIRY_SECONDS < expires_in_seconds then .error (.err .InvalidExpiryTime)
  else if proposer ∉ s.signers then .error (.err .UnknownSigner)
  else if amount ≤ 0 then .error (.err .InvalidProposal)
  else
    let proposal_id := s.proposalCount + 1
    let prop : Proposal :=
      { id := proposal_id, proposer := proposer, token_address := token_address,
        recipient := recipient, amount := amount, reason := reason,
        created_at := now, expires_at := now + expires_in_seconds,
        executed := false }
    .ok (proposal_id, { s with
      proposalCount := proposal_id,
      proposals := setKey s.proposals proposal_id prop,
      proposalApprovals := setKey s.proposalApprovals proposal_id [] })

/-- Embeds approve_proposal. -/
def approve_proposal (s : MState) (now : Nat) (proposal_id : Nat)
    (approver : Nat) : Except CallError MState :=
  if !s.initialized then .error (.err .NotInitialized)
  else if approver ∉ s.signers then .error (.err .UnknownSigner)
  else match getKey s.proposals proposal_id with
  | none => .error (.err .ProposalNotFound)
  | some prop =>
    if proposal_id ∈ s.proposalExecuted then .error (.err .ProposalAlreadyExecuted)
    else if prop.expires_at < now then .error (.err .ProposalExpired)
    else if ((getKey s.proposalApprovals proposal_id).getD []).any
        (fun a => a.signer = approver) then
      .error (.err .AlreadyApproved)
    else .ok { s with
      proposalApprovals := setKey s.proposalApprovals proposal_id
        (((getKey s.proposalApprovals proposal_id).getD []) ++
          [{ signer := approver, approved_at := now }]) }

/-- Removes the first approval entry of the given signer, as the indexed
scan with break in revoke_approval; none when no entry matches. -/
def removeFirst : List ProposalApproval → Nat → Option (List ProposalApproval)
  | [], _ => none
  | a :: t, r =>
    if a.signer = r then some t
    else match removeFirst t r with
      | none => none
      | some t1 => some (a :: t1)

/-- Embeds revoke_approval. -/
def revoke_approval (s : MState) (proposal_id : Nat) (revoker : Nat) :
    Except CallError MState :=
  if !s.initialized then .error (.err .NotInitialized)
  else if revoker ∉ s.signers then .error (.err .UnknownSigner)
  else match getKey s.proposals proposal_id with
  | none => .error (.err .ProposalNotFound)
  | some _ =>
    if proposal_id ∈ s.proposalExecuted then .error (.err .ProposalAlreadyExecuted)
    else match removeFirst ((getKey s.proposalApprovals proposal_id).getD []) revoker with
      | none => .error (.err .SignerNotFound)
      | some approvals1 =>
        .ok { s with proposalApprovals := setKey s.proposalApprovals proposal_id approvals1 }

/-- Embeds execute_proposal; transferOk is the outcome of the external
token transfer, which in the source is attempted before the executed
marker is written and traps the whole call on failure. -/
def execute_proposal (s : MState) (now : Nat) (proposal_id : Nat)
    (transferOk : Bool) : Except CallError MState :=
  if !s.initialized then .error (.err .NotInitialized)
  else match getKey s.proposals proposal_id with
  | none => .error (.err .ProposalNotFound)
  | some prop =>
    if proposal_id ∈ s.proposalExecuted then .error (.err .ProposalAlreadyExecuted)
    else if prop.expires_at < now then .error (.err .ProposalExpired)
    else if ((getKey s.proposalApprovals proposal_id).getD []).length < s.threshold then
      .error (.err .InsufficientApprovals)
    else if !transferOk then .error .transferFailed
    else .ok { s with
      proposalExecuted := proposal_id :: s.proposalExecuted,
      proposals := setKey s.proposals proposal_id { prop with executed := true },
      nonce := s.nonce + 1 }

/-- Embeds get_proposal; the source unwraps the storage value, so a
missing id is a host panic, not a contract error. -/
def get_proposal (s : MState) (proposal_id : Nat) : Except CallError Proposal :=
  if !s.initialized then .error (.err .NotInitialized)
  else match getKey s.proposals proposal_id with
  | none => .error .unwrapPanic
  | some prop => .ok prop

/-- Embeds get_proposal_approvals. -/
def get_proposal_approvals (s : MState) (proposal_id : Nat) :
    Except CallError (List ProposalApproval) :=
  if !s.initialized then .error (.err .NotInitialized)
  else .ok ((getKey s.proposalApprovals proposal_id).getD [])

/-- Embeds is_proposal_executed. -/
def is_proposal_executed (s : MState) (proposal_id : Nat) : Except CallError Bool :=
  if !s.initialized then .error (.err .NotInitialized)
  else .ok (decide (proposal_id ∈ s.proposalExecuted))

/-- Embeds get_proposal_count. -/
def get_proposal_count (s : MState) : Except CallError Nat :=
  if !s.initialized then .error (.err .NotInitialized) else .ok s.proposalCount

/-- Embeds get_signer_change_proposal; like get_proposal it unwraps. -/
def get_signer_change_proposal (s : MState) (proposal_id : Nat) :
    Except CallError SignerChangeProposal :=
  if !s.initialized then .error (.err .NotInitialized)
  else match getKey s.scProposals proposal_id with
  | none => .error .unwrapPanic
  | some prop => .ok prop

/-- Embeds get_signer_change_approvals. -/
def get_signer_change_approvals (s : MState) (proposal_id : Nat) :
    Except CallError (List SignerChangeApproval) :=
  if !s.initialized then .error (.err .NotInitialized)
  else .ok ((getKey s.scApprovals proposal_id).getD [])

/-- Embeds is_signer_change_executed. -/
def is_signer_change_executed (s : MState) (proposal_id : Nat) :
    Except CallError Bool :=
  if !s.initialized then .error (.err .NotInitialized)
  else .ok (decide (proposal_id ∈ s.scExecuted))

/-- One external call to a mutating entry point, with its externally
supplied timestamp where the source reads the ledger clock. -/
inductive Op where
  | initOp (signers : List Nat) (threshold : Nat)
  | proposeScOp (now proposer : Nat) (change_type : String) (signer : Nat)
      (expires_in_seconds : Nat)
  | approveScOp (now proposal_id approver : Nat)
  | executeScOp (now proposal_id : Nat)
  | createOp (now proposer token_address recipient : Nat) (amount : Int)
      (reason : String) (expires_in_seconds : Nat)
  | approveOp (now proposal_id approver : Nat)
  | revokeOp (proposal_id revoker : Nat)
  | executeOp (now proposal_id : Nat) (transferOk : Bool)
deriving Repr

/-- Dispatches one call, discarding any returned id. -/
def applyOp (s : MState) : Op → Except CallError MState
  | .initOp sg th => initContract s sg th
  | .proposeScOp now pr ct sg e => (propose_signer_change s now pr ct sg e).map Prod.snd
  | .approveScOp now pid ap => approve_signer_change s now pid ap
  | .executeScOp now pid => execute_signer_change s now pid
  | .createOp now pr tok rcp am rs e => (create_proposal s now pr tok rcp am rs e).map Prod.snd
  | .approveOp now pid ap => approve_proposal s now pid ap
  | .revokeOp pid rv => revoke_approval s pid rv
  | .executeOp now pid ok => execute_proposal s now pid ok

/-- The host applies each call atomically: a failing call reverts and
leaves the persistent state unchanged. -/
def stepOp (s : MState) (op : Op) : MState :=
  match applyOp s op with
  | .ok s1 => s1
  | .error _ => s

/-- Runs a sequence of calls, each applied atomically. -/
def runOps (s : MState) (ops : List Op) : MState := ops.foldl stepOp s

/-- Every stored proposal id (of either kind) is at most the id counter;
this holds in reachable states and makes fresh ids really fresh. -/
def IdsBounded (s : MState) : Prop :=
  (∀ kv ∈ s.proposals, kv.1 ≤ s.proposalCount) ∧
  (∀ kv ∈ s.scProposals, kv.1 ≤ s.proposalCount)

instance (s : MState) : Decidable (IdsBounded s) := by
  unfold IdsBounded
  infer_instance

theorem getKey_setKey_self {α : Type} (l : List (Nat × α)) (k : Nat) (v : α) :
    getKey (setKey l k v) k = some v := by
  induction l with
  | nil => simp [setKey, getKey]
  | cons hd t ih =>
    obtain ⟨k0, v0⟩ := hd
    by_cases hk : k0 = k
    · simp [setKey, hk, getKey]
    · simp [setKey, hk, getKey, ih]

theorem getKey_setKey_ne {α : Type} (l : List (Nat × α)) (k j : Nat) (v : α)
    (h : k ≠ j) : getKey (setKey l k v) j = getKey l j := by
  induction l with
  | nil => simp [setKey, getKey, h]
  | cons hd t ih =>
    obtain ⟨k0, v0⟩ := hd
    by_cases hk : k0 = k
    · subst hk
      simp [setKey, getKey, h]
    · simp [setKey, hk, getKey, ih]

theorem removeFirst_eq_none {l : List ProposalApproval} {r : Nat}
    (h : removeFirst l r = none) : ∀ a ∈ l, a.signer ≠ r := by
  induction l with
  | nil => simp
  | cons a t ih =>
    intro b hb
    by_cases ha : a.signer = r
    · simp [removeFirst, ha] at h
    · simp [removeFirst, ha] at h
      rcases List.mem_cons.mp hb with hb | hb
      · simpa [hb] using ha
      · rcases h1 : removeFirst t r with _ | t1
        · exact ih h1 b hb
        · simp [h1] at h

theorem removeFirst_eq_some {l l1 : List ProposalApproval} {r : Nat}
    (h : removeFirst l r = some l1) :
    ∃ pre a post, l = pre ++ a :: post ∧ a.signer = r ∧
      (∀ b ∈ pre, b.signer ≠ r) ∧ l1 = pre ++ post := by
  induction l generalizing l1 with
  | nil => simp [removeFirst] at h
  | cons a t ih =>
    by_cases ha : a.signer = r
    · refine ⟨[], a, t, by simp, ha, by simp, ?_⟩
      simp [removeFirst, ha] at h
      simpa using h.symm
    · rcases h1 : removeFirst t r with _ | t1
      · simp [removeFirst, ha, h1] at h
      · simp [removeFirst, ha, h1] at h
        obtain ⟨pre, b, post, ht, hb, hpre, ht1⟩ := ih h1
        refine ⟨a :: pre, b, post, by simp [ht], hb, ?_, by simp [← h, ht1]⟩
        intro c hc
        rcases List.mem_cons.mp hc with hc | hc
        · simpa [hc] using ha
        · exact hpre c hc

theorem removeFirst_mem {l : List ProposalApproval} {r : Nat}
    (h : ∃ a ∈ l, a.signer = r) : ∃ l1, removeFirst l r = some l1 := by
  induction l with
  | nil => simp at h
  | cons a t ih =>
    by_cases ha : a.signer = r
    · exact ⟨t, by simp [removeFirst, ha]⟩
    · obtain ⟨b, hb, hbr⟩ := h
      rcases List.mem_cons.mp hb with hb | hb
      · exact absurd (hb ▸ hbr) ha
      · obtain ⟨t1, ht1⟩ := ih ⟨b, hb, hbr⟩
        exact ⟨a :: t1, by simp [removeFirst, ha, ht1]⟩

theorem getKey_mem {α : Type} {l : List (Nat × α)} {k : Nat} {v : α}
    (h : getKey l k = some v) : (k, v) ∈ l := by
  induction l with
  | nil => simp [getKey] at h
  | cons hd t ih =>
    obtain ⟨k0, v0⟩ := hd
    by_cases hk : k0 = k
    · subst hk
      simp [getKey] at h
      simp [h]
    · simp [getKey, hk] at h
      exact List.mem_cons_of_mem _ (ih h)

theorem mem_setKey {α : Type} {l : List (Nat × α)} {k : Nat} {v : α}
    {kv : Nat × α} (h : kv ∈ setKey l k v) : kv.1 = k ∨ kv ∈ l := by
  induction l with
  | nil =>
    simp [setKey] at h
    simp [h]
  | cons hd t ih =>
    obtain ⟨k0, v0⟩ := hd
    by_cases hk : k0 = k
    · subst hk
      simp [setKey] at h
      rcases h with h | h
      · simp [h]
      · exact Or.inr (List.mem_cons_of_mem _ h)
    · simp [setKey, hk] at h
      rcases h with h | h
      · exact Or.inr (by simp [h])
      · rcases ih h with h1 | h1
        · exact Or.inl h1
        · exact Or.inr (List.mem_cons_of_mem _ h1)

/-- Success inversion for the initialization entry point. -/
theorem initContract_ok {s s' : MState} {sg : List Nat} {th : Nat}
    (h : initContract s sg th = .ok s') :
    s.initialized = false ∧ 1 ≤ th ∧ th ≤ sg.length ∧ hasDuplicate sg = false ∧
    s' = { s with initialized := true, signerCount := sg.length, threshold := th,
                  nonce := 0, signers := sg.foldl setSigner s.signers } := by
  unfold initContract at h
  repeat' split at h
  all_goals try cases h
  rename_i h1 h2 h3 h4 h5
  exact ⟨by simpa using h1, by omega, by omega, by simpa using h5, rfl⟩

theorem propose_signer_change_ok {s s' : MState} {now pr sg e r : Nat}
    {ct : String} (h : propose_signer_change s now pr ct sg e = .ok (r, s')) :
    s.initialized = true ∧ MIN_EXPIRY_SECONDS ≤ e ∧ e ≤ MAX_EXPIRY_SECONDS ∧
    pr ∈ s.signers ∧ (ct = "add" ∨ ct = "remove") ∧
    ¬(ct = "add" ∧ sg ∈ s.signers) ∧ ¬(ct = "remove" ∧ sg ∉ s.signers) ∧
    ¬(ct = "remove" ∧ s.signerCount - 1 < s.threshold) ∧
    r = s.proposalCount + 1 ∧
    s' = { s with
      proposalCount := s.proposalCount + 1,
      scProposals := setKey s.scProposals (s.proposalCount + 1)
        { id := s.proposalCount + 1, proposer := pr, change_type := ct,
          signer := sg, created_at := now, expires_at := now + e,
          executed := false },
      scApprovals := setKey s.scApprovals (s.proposalCount + 1) [] } := by
  unfold propose_signer_change at h
  repeat' split at h
  all_goals try cases h
  rename_i h1 h2 h3 h4 h5 h6 h7 h8
  refine ⟨by simpa using h1, by omega, by omega, by simpa using h4,
    by tauto, h6, h7, h8, rfl, rfl⟩

theorem approve_signer_change_ok {s s' : MState} {now pid ap : Nat}
    (h : approve_signer_change s now pid ap = .ok s') :
    ∃ prop, getKey s.scProposals pid = some prop ∧
      s.initialized = true ∧ ap ∈ s.signers ∧ pid ∉ s.scExecuted ∧
      ¬ prop.expires_at < now ∧
      (∀ a ∈ (getKey s.scApprovals pid).getD [], a.signer ≠ ap) ∧
      s' = { s with
        scApprovals := setKey s.scApprovals pid
          (((getKey s.scApprovals pid).getD []) ++
            [{ signer := ap, approved_at := now }]) } := by
  unfold approve_signer_change at h
  repeat' split at h
  all_goals try cases h
  rename_i h1 h2 x prop hprop h3 h4 h5
  refine ⟨prop, hprop, by simpa using h1, by simpa using h2, h3, h4, ?_, rfl⟩
  intro a ha hc
  exact absurd (List.any_eq_true.mpr ⟨a, ha, by simp [hc]⟩) h5

theorem execute_signer_change_ok {s s' : MState} {now pid : Nat}
    (h : execute_signer_change s now pid = .ok s') :
    ∃ prop, getKey s.scProposals pid = some prop ∧
      s.initialized = true ∧ pid ∉ s.scExecuted ∧ ¬ prop.expires_at < now ∧
      s.threshold ≤ ((getKey s.scApprovals pid).getD []).length ∧
      s' = { s with
        signers :=
          (if prop.change_type = "add" then setSigner s.signers prop.signer
           else if prop.change_type = "remove" then removeSigner s.signers prop.signer
           else s.signers),
        signerCount :=
          (if prop.change_type = "add" then s.signerCount + 1
           else if prop.change_type = "remove" then s.signerCount - 1
           else s.signerCount),
        scExecuted := pid :: s.scExecuted,
        scProposals := setKey s.scProposals pid { prop with executed := true } } := by
  unfold execute_signer_change at h
  repeat' split at h
  all_goals try cases h
  · rename_i h1 x prop hprop h2 h3 h4 h5
    exact ⟨prop, hprop, by simpa using h1, h2, h3, by omega, by simp [h5]⟩
  · rename_i h1 x prop hprop h2 h3 h4 h5 h6
    exact ⟨prop, hprop, by simpa using h1, h2, h3, by omega, by simp [h5, h6]⟩
  · rename_i h1 x prop hprop h2 h3 h4 h5 h6
    exact ⟨prop, hprop, by simpa using h1, h2, h3, by omega, by simp [h5, h6]⟩

theorem create_proposal_ok {s s' : MState} {now pr tok rcp r e : Nat}
    {am : Int} {rs : String}
    (h : create_proposal s now pr tok rcp am rs e = .ok (r, s')) :
    s.initialized = true ∧ MIN_EXPIRY_SECONDS ≤ e ∧ e ≤ MAX_EXPIRY_SECONDS ∧
    pr ∈ s.signers ∧ 0 < am ∧ r = s.proposalCount + 1 ∧
    s' = { s with
      proposalCount := s.proposalCount + 1,
      proposals := setKey s.proposals (s.proposalCount + 1)
        { id := s.proposalCount + 1, proposer := pr, token_address := tok,
          recipient := rcp, amount := am, reason := rs, created_at := now,
          expires_at := now + e, executed := false },
      proposalApprovals := setKey s.proposalApprovals (s.proposalCount + 1) [] } := by
  unfold create_proposal at h
  repeat' split at h
  all_goals try cases h
  rename_i h1 h2 h3 h4 h5
  exact ⟨by simpa using h1, by omega, by omega, by simpa using h4, by omega, rfl, rfl⟩

theorem approve_proposal_ok {s s' : MState} {now pid ap : Nat}
    (h : approve_proposal s now pid ap = .ok s') :
    ∃ prop, getKey s.proposals pid = some prop ∧
      s.initialized = true ∧ ap ∈ s.signers ∧ pid ∉ s.proposalExecuted ∧
      ¬ prop.expires_at < now ∧
      (∀ a ∈ (getKey s.proposalApprovals pid).getD [], a.signer ≠ ap) ∧
      s' = { s with
        proposalApprovals := setKey s.proposalApprovals pid
          (((getKey s.proposalApprovals pid).getD []) ++
            [{ signer := ap, approved_at := now }]) } := by
  unfold approve_proposal at h
  repeat' split at h
  all_goals try cases h
  rename_i h1 h2 x prop hprop h3 h4 h5
  refine ⟨prop, hprop, by simpa using h1, by simpa using h2, h3, h4, ?_, rfl⟩
  intro a ha hc
  exact absurd (List.any_eq_true.mpr ⟨a, ha, by simp [hc]⟩) h5

theorem revoke_approval_ok {s s' : MState} {pid rv : Nat}
    (h : revoke_approval s pid rv = .ok s') :
    ∃ prop l1, getKey s.proposals pid = some prop ∧
      s.initialized = true ∧ rv ∈ s.signers ∧ pid ∉ s.proposalExecuted ∧
      removeFirst ((getKey s.proposalApprovals pid).getD []) rv = some l1 ∧
      s' = { s with proposalApprovals := setKey s.proposalApprovals pid l1 } := by
  unfold revoke_approval at h
  repeat' split at h
  all_goals try cases h
  rename_i h1 h2 x prop hprop h3 y l1 hl1
  exact ⟨prop, l1, hprop, by simpa using h1, by simpa using h2, h3, hl1, rfl⟩

theorem execute_proposal_ok {s s' : MState} {now pid : Nat} {transferOk : Bool}
    (h : execute_proposal s now pid transferOk = .ok s') :
    ∃ prop, getKey s.proposals pid = some prop ∧
      s.initialized = true ∧ pid ∉ s.proposalExecuted ∧ ¬ prop.expires_at < now ∧
      s.threshold ≤ ((getKey s.proposalApprovals pid).getD []).length ∧
      transferOk = true ∧
      s' = { s with
        proposalExecuted := pid :: s.proposalExecuted,
        proposals := setKey s.proposals pid { prop with executed := true },
        nonce := s.nonce + 1 } := by
  unfold execute_proposal at h
  repeat' split at h
  all_goals try cases h
  rename_i h1 x prop hprop h2 h3 h4 h5
  exact ⟨prop, hprop, by simpa using h1, h2, h3, by omega, by simpa using h5, rfl⟩

/-- Scenario states used by witnesses: three signers 0,1,2 with
threshold 2, a transfer proposal id 1 for amount 1000, two approvals. -/
def wInit : MState := stepOp emptyState (.initOp [0, 1, 2] 2)

def wCreated : MState := stepOp wInit (.createOp 0 0 5 6 1000 "pay" 3600)

def wApproved1 : MState := stepOp wCreated (.approveOp 0 1 0)

def wApproved2 : MState := stepOp wApproved1 (.approveOp 0 1 1)

def wExecuted : MState := stepOp wApproved2 (.executeOp 0 1 true)

def wScProposed : MState := stepOp wExecuted (.proposeScOp 0 0 "remove" 2 3600)

def wScApproved2 : MState :=
  stepOp (stepOp wScProposed (.approveScOp 0 2 0)) (.approveScOp 0 2 1)

def wScExecuted : MState := stepOp wScApproved2 (.executeScOp 0 2)

/-- C2: execution is exactly-once: on an already-executed id,
execute_proposal always fails with ProposalAlreadyExecuted and
execute_signer_change with SignerChangeAlreadyExecuted, regardless of the
external transfer outcome, and the call leaves the state unchanged (no
second transfer, no second registry mutation); and a failing external
transfer makes the whole execute_proposal call fail, leaving the state,
hence the executed flag and the approvals, unchanged. -/
theorem C2_exactly_once :
    (∀ (s : MState) (now pid : Nat) (trOk : Bool),
      s.initialized = true → (getKey s.proposals pid).isSome = true →
      pid ∈ s.proposalExecuted →
      execute_proposal s now pid trOk = .error (.err .ProposalAlreadyExecuted) ∧
      stepOp s (.executeOp now pid trOk) = s) ∧
    (∀ (s : MState) (now pid : Nat),
      s.initialized = true → (getKey s.scProposals pid).isSome = true →
      pid ∈ s.scExecuted →
      execute_signer_change s now pid = .error (.err .SignerChangeAlreadyExecuted) ∧
      stepOp s (.executeScOp now pid) = s) ∧
    (∀ (s s' : MState) (now pid : Nat),
      execute_proposal s now pid false ≠ .ok s') ∧
    (∀ (s : MState) (now pid : Nat), stepOp s (.executeOp now pid false) = s) := by
  have hfail : ∀ (s s' : MState) (now pid : Nat),
      execute_proposal s now pid false ≠ .ok s' := by
    intro s s' now pid h
    obtain ⟨prop, -, -, -, -, -, htr, -⟩ := execute_proposal_ok h
    cases htr
  refine ⟨?_, ?_, hfail, ?_⟩
  · intro s now pid trOk hinit hsome hex
    obtain ⟨p, hp⟩ := Option.isSome_iff_exists.mp hsome
    have herr : execute_proposal s now pid trOk =
        .error (.err .ProposalAlreadyExecuted) := by
      simp [execute_proposal, hinit, hp, hex]
    exact ⟨herr, by simp [stepOp, applyOp, herr]⟩
  · intro s now pid hinit hsome hex
    obtain ⟨p, hp⟩ := Option.isSome_iff_exists.mp hsome
    have herr : execute_signer_change s now pid =
        .error (.err .SignerChangeAlreadyExecuted) := by
      simp [execute_signer_change, hinit, hp, hex]
    exact ⟨herr, by simp [stepOp, applyOp, herr]⟩
  · intro s now pid
    unfold stepOp applyOp
    cases hx : execute_proposal s now pid false with
    | ok s1 => exact absurd hx (hfail s s1 now pid)
    | error e => simp [hx]

theorem C2_witness :
    execute_proposal wExecuted 0 1 true = .error (.err .ProposalAlreadyExecuted) ∧
    stepOp wExecuted (.executeOp 0 1 true) = wExecuted :=
  C2_exactly_once.1 wExecuted 0 1 true (by decide) (by decide) (by decide)

/-- C3: quorum is exact-threshold: for an existing, unexpired, unexecuted
proposal of either kind, execute fails with the insufficient-approvals
kind whenever the approval count is strictly below the current threshold,
and succeeds whenever the approval count equals the current threshold
(for a transfer, with the external transfer reporting success). -/
theorem C3_quorum_exact :
    (∀ (s : MState) (now pid : Nat) (trOk : Bool) (p : Proposal),
      s.initialized = true → getKey s.proposals pid = some p →
      pid ∉ s.proposalExecuted → ¬ p.expires_at < now →
      (((getKey s.proposalApprovals pid).getD []).length < s.threshold →
        execute_proposal s now pid trOk = .error (.err .InsufficientApprovals)) ∧
      (((getKey s.proposalApprovals pid).getD []).length = s.threshold →
        ∃ s', execute_proposal s now pid true = .ok s')) ∧
    (∀ (s : MState) (now pid : Nat) (p : SignerChangeProposal),
      s.initialized = true → getKey s.scProposals pid = some p →
      pid ∉ s.scExecuted → ¬ p.expires_at < now →
      (((getKey s.scApprovals pid).getD []).length < s.threshold →
        execute_signer_change s now pid =
          .error (.err .InsufficientSignerChangeApprovals)) ∧
      (((getKey s.scApprovals pid).getD []).length = s.threshold →
        ∃ s', execute_signer_change s now pid = .ok s')) := by
  constructor
  · intro s now pid trOk p hinit hp hex hexp
    constructor
    · intro hlt
      simp [execute_proposal, hinit, hp, hex, hexp, hlt]
    · intro heq
      simp [execute_proposal, hinit, hp, hex, hexp, heq]
  · intro s now pid p hinit hp hex hexp
    constructor
    · intro hlt
      simp [execute_signer_change, hinit, hp, hex, hexp, hlt]
    · intro heq
      simp [execute_signer_change, hinit, hp, hex, hexp, heq]

theorem C3_witness :
    (execute_proposal wApproved1 0 1 true = .error (.err .InsufficientApprovals)) ∧
    (∃ s', execute_proposal wApproved2 0 1 true = .ok s') :=
  ⟨(C3_quorum_exact.1 wApproved1 0 1 true
      { id := 1, proposer := 0, token_address := 5, recipient := 6,
        amount := 1000, reason := "pay", created_at := 0, expires_at := 3600,
        executed := false }
      (by decide) (by decide) (by decide) (by decide)).1 (by decide),
   (C3_quorum_exact.1 wApproved2 0 1 true
      { id := 1, proposer := 0, token_address := 5, recipient := 6,
        amount := 1000, reason := "pay", created_at := 0, expires_at := 3600,
        executed := false }
      (by decide) (by decide) (by decide) (by decide)).2 (by decide)⟩

/-- C10: the expiry deadline is inclusive: at now equal to expires_at the
expiry guard (now strictly greater than expires_at) does not fire, so
approve still succeeds for a fresh approver and execute still succeeds
when the quorum is met. -/
theorem C10_expiry_inclusive :
    (∀ (s : MState) (pid ap : Nat) (p : Proposal),
      s.initialized = true → ap ∈ s.signers →
      getKey s.proposals pid = some p → pid ∉ s.proposalExecuted →
      (∀ a ∈ (getKey s.proposalApprovals pid).getD [], a.signer ≠ ap) →
      ∃ s', approve_proposal s p.expires_at pid ap = .ok s') ∧
    (∀ (s : MState) (pid ap : Nat) (p : SignerChangeProposal),
      s.initialized = true → ap ∈ s.signers →
      getKey s.scProposals pid = some p → pid ∉ s.scExecuted →
      (∀ a ∈ (getKey s.scApprovals pid).getD [], a.signer ≠ ap) →
      ∃ s', approve_signer_change s p.expires_at pid ap = .ok s') ∧
    (∀ (s : MState) (pid : Nat) (p : Proposal),
      s.initialized = true → getKey s.proposals pid = some p →
      pid ∉ s.proposalExecuted →
      s.threshold ≤ ((getKey s.proposalApprovals pid).getD []).length →
      ∃ s', execute_proposal s p.expires_at pid true = .ok s') ∧
    (∀ (s : MState) (pid : Nat) (p : SignerChangeProposal),
      s.initialized = true → getKey s.scProposals pid = some p →
      pid ∉ s.scExecuted →
      s.threshold ≤ ((getKey s.scApprovals pid).getD []).length →
      ∃ s', execute_signer_change s p.expires_at pid = .ok s') := by
  refine ⟨?_, ?_, ?_, ?_⟩
  · intro s pid ap p hinit hap hp hex hdup
    have hany : (((getKey s.proposalApprovals pid).getD []).any
        (fun a => a.signer = ap)) = false := by
      rw [List.any_eq_false]
      intro a ha
      simpa using hdup a ha
    simp [approve_proposal, hinit, hap, hp, hex, hany]
  · intro s pid ap p hinit hap hp hex hdup
    have hany : (((getKey s.scApprovals pid).getD []).any
        (fun a => a.signer = ap)) = false := by
      rw [List.any_eq_false]
      intro a ha
      simpa using hdup a ha
    simp [approve_signer_change, hinit, hap, hp, hex, hany]
  · intro s pid p hinit hp hex hth
    simp [execute_proposal, hinit, hp, hex, Nat.not_lt.mpr hth]
  · intro s pid p hinit hp hex hth
    simp [execute_signer_change, hinit, hp, hex, Nat.not_lt.mpr hth]

theorem C10_witness :
    ∃ s', approve_proposal wCreated 3600 1 2 = .ok s' :=
  C10_expiry_inclusive.1 wCreated 1 2
    { id := 1, proposer := 0, token_address := 5, recipient := 6,
      amount := 1000, reason := "pay", created_at := 0, expires_at := 3600,
      executed := false }
    (by decide) (by decide) (by decide) (by decide) (by decide)

/-- C8: the nonce is zeroed by initialization and incremented by exactly
one by a successful execute_proposal; every other successful operation
leaves it unchanged, and a failing call leaves the state, hence the
nonce, unchanged. -/
theorem C8_nonce_behavior :
    (∀ (s s' : MState) (sg : List Nat) (th : Nat),
      initContract s sg th = .ok s' → s'.nonce = 0) ∧
    (∀ (s s' : MState) (now pid : Nat) (trOk : Bool),
      execute_proposal s now pid trOk = .ok s' → s'.nonce = s.nonce + 1) ∧
    (∀ (s s' : MState) (now pr sg e r : Nat) (ct : String),
      propose_signer_change s now pr ct sg e = .ok (r, s') → s'.nonce = s.nonce) ∧
    (∀ (s s' : MState) (now pid ap : Nat),
      approve_signer_change s now pid ap = .ok s' → s'.nonce = s.nonce) ∧
    (∀ (s s' : MState) (now pid : Nat),
      execute_signer_change s now pid = .ok s' → s'.nonce = s.nonce) ∧
    (∀ (s s' : MState) (now pr tok rcp r e : Nat) (am : Int) (rs : String),
      create_proposal s now pr tok rcp am rs e = .ok (r, s') → s'.nonce = s.nonce) ∧
    (∀ (s s' : MState) (now pid ap : Nat),
      approve_proposal s now pid ap = .ok s' → s'.nonce = s.nonce) ∧
    (∀ (s s' : MState) (pid rv : Nat),
      revoke_approval s pid rv = .ok s' → s'.nonce = s.nonce) ∧
    (∀ (s : MState) (op : Op) (e : CallError),
      applyOp s op = .error e → stepOp s op = s) := by
  refine ⟨?_, ?_, ?_, ?_, ?_, ?_, ?_, ?_, ?_⟩
  · intro s s' sg th h
    obtain ⟨-, -, -, -, rfl⟩ := initContract_ok h
    rfl
  · intro s s' now pid trOk h
    obtain ⟨prop, -, -, -, -, -, -, rfl⟩ := execute_proposal_ok h
    rfl
  · intro s s' now pr sg e r ct h
    obtain ⟨-, -, -, -, -, -, -, -, -, rfl⟩ := propose_signer_change_ok h
    rfl
  · intro s s' now pid ap h
    obtain ⟨prop, -, -, -, -, -, -, rfl⟩ := approve_signer_change_ok h
    rfl
  · intro s s' now pid h
    obtain ⟨prop, -, -, -, -, -, rfl⟩ := execute_signer_change_ok h
    rfl
  · intro s s' now pr tok rcp r e am rs h
    obtain ⟨-, -, -, -, -, -, rfl⟩ := create_proposal_ok h
    rfl
  · intro s s' now pid ap h
    obtain ⟨prop, -, -, -, -, -, -, rfl⟩ := approve_proposal_ok h
    rfl
  · intro s s' pid rv h
    obtain ⟨prop, l1, -, -, -, -, -, rfl⟩ := revoke_approval_ok h
    rfl
  · intro s op e h
    simp [stepOp, h]

theorem C8_witness :
    stepOp emptyState (Op.approveOp 0 1 0) = emptyState :=
  (C8_nonce_behavior.2.2.2.2.2.2.2.2) emptyState (Op.approveOp 0 1 0)
    (.err .NotInitialized) (by rfl)

theorem map_snd_ok {γ : Type} {x : Except CallError (γ × MState)} {s1 : MState}
    (h : x.map Prod.snd = .ok s1) : ∃ r, x = .ok (r, s1) := by
  cases x with
  | error e => simp [Except.map] at h
  | ok rs =>
    refine ⟨rs.1, ?_⟩
    simp [Except.map] at h
    simp [← h]

theorem getKey_eq_none {α : Type} {l : List (Nat × α)} {k : Nat}
    (h : ∀ kv ∈ l, kv.1 ≠ k) : getKey l k = none := by
  induction l with
  | nil => rfl
  | cons hd t ih =>
    obtain ⟨k0, v0⟩ := hd
    have hk : k0 ≠ k := h (k0, v0) (by simp)
    simp [getKey, hk]
    exact ih (fun kv hkv => h kv (List.mem_cons_of_mem _ hkv))

/-- Every call preserves the id-counter bound on stored proposal ids. -/
theorem stepOp_IdsBounded {s : MState} (op : Op) (hb : IdsBounded s) :
    IdsBounded (stepOp s op) := by
  unfold stepOp
  cases h : applyOp s op with
  | error e => exact hb
  | ok s1 =>
    show IdsBounded s1
    obtain ⟨hb1, hb2⟩ := hb
    cases op with
    | initOp sg th =>
      obtain ⟨-, -, -, -, rfl⟩ := initContract_ok h
      exact ⟨hb1, hb2⟩
    | proposeScOp now pr ct sg e =>
      obtain ⟨r, hx⟩ := map_snd_ok h
      obtain ⟨-, -, -, -, -, -, -, -, -, rfl⟩ := propose_signer_change_ok hx
      constructor
      · intro kv hkv
        exact le_trans (hb1 kv hkv) (Nat.le_succ _)
      · intro kv hkv
        rcases mem_setKey hkv with h1 | h1
        · show kv.1 ≤ s.proposalCount + 1
          omega
        · exact le_trans (hb2 kv h1) (Nat.le_succ _)
    | approveScOp now pid2 ap =>
      obtain ⟨prop, -, -, -, -, -, -, rfl⟩ := approve_signer_change_ok h
      exact ⟨hb1, hb2⟩
    | executeScOp now pid2 =>
      obtain ⟨prop, hprop, -, -, -, -, rfl⟩ := execute_signer_change_ok h
      refine ⟨hb1, ?_⟩
      intro kv hkv
      rcases mem_setKey hkv with h1 | h1
      · have := hb2 (pid2, prop) (getKey_mem hprop)
        simpa [h1] using this
      · exact hb2 kv h1
    | createOp now pr tok rcp am rs e =>
      obtain ⟨r, hx⟩ := map_snd_ok h
      obtain ⟨-, -, -, -, -, -, rfl⟩ := create_proposal_ok hx
      constructor
      · intro kv hkv
        rcases mem_setKey hkv with h1 | h1
        · show kv.1 ≤ s.proposalCount + 1
          omega
        · exact le_trans (hb1 kv h1) (Nat.le_succ _)
      · intro kv hkv
        exact le_trans (hb2 kv hkv) (Nat.le_succ _)
    | approveOp now pid2 ap =>
      obtain ⟨prop, -, -, -, -, -, -, rfl⟩ := approve_proposal_ok h
      exact ⟨hb1, hb2⟩
    | revokeOp pid2 rv =>
      obtain ⟨prop, l1, -, -, -, -, -, rfl⟩ := revoke_approval_ok h
      exact ⟨hb1, hb2⟩
    | executeOp now pid2 trOk =>
      obtain ⟨prop, hprop, -, -, -, -, -, rfl⟩ := execute_proposal_ok h
      refine ⟨?_, hb2⟩
      intro kv hkv
      rcases mem_setKey hkv with h1 | h1
      · have := hb1 (pid2, prop) (getKey_mem hprop)
        simpa [h1] using this
      · exact hb1 kv h1

/-- No call changes the expiry deadline of a stored transfer proposal. -/
theorem stepOp_expiry_tr {s : MState} {pid : Nat} {p : Proposal} (op : Op)
    (hb : IdsBounded s) (hp : getKey s.proposals pid = some p) :
    ∃ p', getKey (stepOp s op).proposals pid = some p' ∧
      p'.expires_at = p.expires_at := by
  unfold stepOp
  cases h : applyOp s op with
  | error e => exact ⟨p, hp, rfl⟩
  | ok s1 =>
    show ∃ p', getKey s1.proposals pid = some p' ∧ p'.expires_at = p.expires_at
    cases op with
    | initOp sg th =>
      obtain ⟨-, -, -, -, rfl⟩ := initContract_ok h
      exact ⟨p, hp, rfl⟩
    | proposeScOp now pr ct sg e =>
      obtain ⟨r, hx⟩ := map_snd_ok h
      obtain ⟨-, -, -, -, -, -, -, -, -, rfl⟩ := propose_signer_change_ok hx
      exact ⟨p, hp, rfl⟩
    | approveScOp now pid2 ap =>
      obtain ⟨prop, -, -, -, -, -, -, rfl⟩ := approve_signer_change_ok h
      exact ⟨p, hp, rfl⟩
    | executeScOp now pid2 =>
      obtain ⟨prop, hprop, -, -, -, -, rfl⟩ := execute_signer_change_ok h
      exact ⟨p, hp, rfl⟩
    | createOp now pr tok rcp am rs e =>
      obtain ⟨r, hx⟩ := map_snd_ok h
      obtain ⟨-, -, -, -, -, -, rfl⟩ := create_proposal_ok hx
      have hne : s.proposalCount + 1 ≠ pid := by
        have := hb.1 (pid, p) (getKey_mem hp)
        simp at this
        omega
      refine ⟨p, ?_, rfl⟩
      simpa [getKey_setKey_ne _ _ _ _ hne] using hp
    | approveOp now pid2 ap =>
      obtain ⟨prop, -, -, -, -, -, -, rfl⟩ := approve_proposal_ok h
      exact ⟨p, hp, rfl⟩
    | revokeOp pid2 rv =>
      obtain ⟨prop, l1, -, -, -, -, -, rfl⟩ := revoke_approval_ok h
      exact ⟨p, hp, rfl⟩
    | executeOp now pid2 trOk =>
      obtain ⟨prop, hprop, -, -, -, -, -, rfl⟩ := execute_proposal_ok h
      by_cases hpid : pid2 = pid
      · subst hpid
        have : prop = p := by
          have := hprop.symm.trans hp
          simpa using this
        subst this
        exact ⟨{ prop with executed := true }, by simp [getKey_setKey_self], rfl⟩
      · exact ⟨p, by simpa [getKey_setKey_ne _ _ _ _ hpid] using hp, rfl⟩

/-- No call changes the expiry deadline of a stored signer-change proposal. -/
theorem stepOp_expiry_sc {s : MState} {pid : Nat} {p : SignerChangeProposal}
    (op : Op) (hb : IdsBounded s) (hp : getKey s.scProposals pid = some p) :
    ∃ p', getKey (stepOp s op).scProposals pid = some p' ∧
      p'.expires_at = p.expires_at := by
  unfold stepOp
  cases h : applyOp s op with
  | error e => exact ⟨p, hp, rfl⟩
  | ok s1 =>
    show ∃ p', getKey s1.scProposals pid = some p' ∧ p'.expires_at = p.expires_at
    cases op with
    | initOp sg th =>
      obtain ⟨-, -, -, -, rfl⟩ := initContract_ok h
      exact ⟨p, hp, rfl⟩
    | proposeScOp now pr ct sg e =>
      obtain ⟨r, hx⟩ := map_snd_ok h
      obtain ⟨-, -, -, -, -, -, -, -, -, rfl⟩ := propose_signer_change_ok hx
      have hne : s.proposalCount + 1 ≠ pid := by
        have := hb.2 (pid, p) (getKey_mem hp)
        simp at this
        omega
      refine ⟨p, ?_, rfl⟩
      simpa [getKey_setKey_ne _ _ _ _ hne] using hp
    | approveScOp now pid2 ap =>
      obtain ⟨prop, -, -, -, -, -, -, rfl⟩ := approve_signer_change_ok h
      exact ⟨p, hp, rfl⟩
    | executeScOp now pid2 =>
      obtain ⟨prop, hprop, -, -, -, -, rfl⟩ := execute_signer_change_ok h
      by_cases hpid : pid2 = pid
      · subst hpid
        have : prop = p := by
          have := hprop.symm.trans hp
          simpa using this
        subst this
        exact ⟨{ prop with executed := true }, by simp [getKey_setKey_self], rfl⟩
      · exact ⟨p, by simpa [getKey_setKey_ne _ _ _ _ hpid] using hp, rfl⟩
    | createOp now pr tok rcp am rs e =>
      obtain ⟨r, hx⟩ := map_snd_ok h
      obtain ⟨-, -, -, -, -, -, rfl⟩ := create_proposal_ok hx
      exact ⟨p, hp, rfl⟩
    | approveOp now pid2 ap =>
      obtain ⟨prop, -, -, -, -, -, -, rfl⟩ := approve_proposal_ok h
      exact ⟨p, hp, rfl⟩
    | revokeOp pid2 rv =>
      obtain ⟨prop, l1, -, -, -, -, -, rfl⟩ := revoke_approval_ok h
      exact ⟨p, hp, rfl⟩
    | executeOp now pid2 trOk =>
      obtain ⟨prop, hprop, -, -, -, -, -, rfl⟩ := execute_proposal_ok h
      exact ⟨p, hp, rfl⟩

theorem runOps_expiry_tr {s : MState} {pid : Nat} {p : Proposal}
    (ops : List Op) (hb : IdsBounded s) (hp : getKey s.proposals pid = some p) :
    ∃ p', getKey (runOps s ops).proposals pid = some p' ∧
      p'.expires_at = p.expires_at := by
  induction ops generalizing s p with
  | nil => exact ⟨p, hp, rfl⟩
  | cons op rest ih =>
    obtain ⟨p1, hp1, he1⟩ := stepOp_expiry_tr op hb hp
    obtain ⟨p2, hp2, he2⟩ := ih (stepOp_IdsBounded op hb) hp1
    exact ⟨p2, hp2, he2.trans he1⟩

theorem runOps_expiry_sc {s : MState} {pid : Nat} {p : SignerChangeProposal}
    (ops : List Op) (hb : IdsBounded s) (hp : getKey s.scProposals pid = some p) :
    ∃ p', getKey (runOps s ops).scProposals pid = some p' ∧
      p'.expires_at = p.expires_at := by
  induction ops generalizing s p with
  | nil => exact ⟨p, hp, rfl⟩
  | cons op rest ih =>
    obtain ⟨p1, hp1, he1⟩ := stepOp_expiry_sc op hb hp
    obtain ⟨p2, hp2, he2⟩ := ih (stepOp_IdsBounded op hb) hp1
    exact ⟨p2, hp2, he2.trans he1⟩

theorem approve_expired_fails {s : MState} {pid : Nat} {p : Proposal}
    (ap t : Nat) (hp : getKey s.proposals pid = some p)
    (hexp : p.expires_at < t) :
    ∃ e, approve_proposal s t pid ap = .error e := by
  unfold approve_proposal
  simp only [hp]
  repeat' split
  all_goals try exact ⟨_, rfl⟩

theorem execute_expired_fails {s : MState} {pid : Nat} {p : Proposal}
    (t : Nat) (trOk : Bool) (hp : getKey s.proposals pid = some p)
    (hexp : p.expires_at < t) :
    ∃ e, execute_proposal s t pid trOk = .error e := by
  unfold execute_proposal
  simp only [hp]
  repeat' split
  all_goals try exact ⟨_, rfl⟩

theorem approve_sc_expired_fails {s : MState} {pid : Nat}
    {p : SignerChangeProposal} (ap t : Nat)
    (hp : getKey s.scProposals pid = some p) (hexp : p.expires_at < t) :
    ∃ e, approve_signer_change s t pid ap = .error e := by
  unfold approve_signer_change
  simp only [hp]
  repeat' split
  all_goals try exact ⟨_, rfl⟩

theorem execute_sc_expired_fails {s : MState} {pid : Nat}
    {p : SignerChangeProposal} (t : Nat)
    (hp : getKey s.scProposals pid = some p) (hexp : p.expires_at < t) :
    ∃ e, execute_signer_change s t pid = .error e := by
  unfold execute_signer_change
  simp only [hp]
  repeat' split
  all_goals try exact ⟨_, rfl⟩

/-- C9: expiry is monotonic and permanent: once the supplied time exceeds
the stored expiry deadline of a proposal of either kind, every later
approve or execute call on it, after any sequence of intervening calls and
at any time at least as late, fails (given that stored ids do not exceed
the id counter, which holds in every reachable state). -/
theorem C9_expiry_permanent :
    (∀ (s : MState) (pid : Nat) (p : Proposal) (ops : List Op)
       (t0 t ap : Nat) (trOk : Bool),
      IdsBounded s → getKey s.proposals pid = some p →
      p.expires_at < t0 → t0 ≤ t →
      (∃ e, approve_proposal (runOps s ops) t pid ap = .error e) ∧
      (∃ e, execute_proposal (runOps s ops) t pid trOk = .error e)) ∧
    (∀ (s : MState) (pid : Nat) (p : SignerChangeProposal) (ops : List Op)
       (t0 t ap : Nat),
      IdsBounded s → getKey s.scProposals pid = some p →
      p.expires_at < t0 → t0 ≤ t →
      (∃ e, approve_signer_change (runOps s ops) t pid ap = .error e) ∧
      (∃ e, execute_signer_change (runOps s ops) t pid = .error e)) := by
  constructor
  · intro s pid p ops t0 t ap trOk hb hp hexp ht
    obtain ⟨p', hp', he'⟩ := runOps_expiry_tr ops hb hp
    have hexp' : p'.expires_at < t := by omega
    exact ⟨approve_expired_fails ap t hp' hexp',
      execute_expired_fails t trOk hp' hexp'⟩
  · intro s pid p ops t0 t ap hb hp hexp ht
    obtain ⟨p', hp', he'⟩ := runOps_expiry_sc ops hb hp
    have hexp' : p'.expires_at < t := by omega
    exact ⟨approve_sc_expired_fails ap t hp' hexp',
      execute_sc_expired_fails t hp' hexp'⟩

theorem C9_witness :
    (∃ e, approve_proposal (runOps wCreated [Op.approveOp 3601 1 0]) 3700 1 1 =
      .error e) ∧
    (∃ e, execute_proposal (runOps wCreated [Op.approveOp 3601 1 0]) 3700 1 true =
      .error e) :=
  C9_expiry_permanent.1 wCreated 1
    { id := 1, proposer := 0, token_address := 5, recipient := 6,
      amount := 1000, reason := "pay", created_at := 0, expires_at := 3600,
      executed := false }
    [Op.approveOp 3601 1 0] 3601 3700 1 true
    (by decide) (by decide) (by decide) (by decide)

/-- C1 counterexample: with signers 0 and 1 and threshold 1, two remove
proposals both pass the proposal-time check, and executing both drops the
signer count to 0 while the threshold stays 1, so the registry invariant
fails in a reachable state; every call in the trace succeeds. -/
theorem C1_counterexample :
    (do
      let s1 ← initContract emptyState [0, 1] 1
      let r1 ← propose_signer_change s1 0 0 "remove" 0 3600
      let r2 ← propose_signer_change r1.2 0 0 "remove" 1 3600
      let s2 ← approve_signer_change r2.2 0 1 0
      let s3 ← approve_signer_change s2 0 2 0
      let s4 ← execute_signer_change s3 0 1
      let s5 ← execute_signer_change s4 0 2
      pure (s5.threshold, s5.signerCount) :
        Except CallError (Nat × Nat)) = .ok (1, 0) := by rfl

/-- C1 amended: initialization establishes the invariant
1 <= threshold <= signer_count; propose_signer_change rejects a remove
whenever signer_count - 1 < threshold at proposal time; every successful
operation other than execute_signer_change preserves threshold and
signer_count; executing an add preserves the invariant unconditionally,
and executing a remove preserves it exactly when
threshold <= signer_count - 1 still holds at execution time (the check is
not re-run there, so interleaved removes can break the invariant). -/
theorem C1_amended_invariant :
    (∀ (s s' : MState) (sg : List Nat) (th : Nat),
      initContract s sg th = .ok s' →
      1 ≤ s'.threshold ∧ s'.threshold ≤ s'.signerCount) ∧
    (∀ (s : MState) (now pr sg e : Nat),
      s.initialized = true → ¬ e < MIN_EXPIRY_SECONDS →
      ¬ MAX_EXPIRY_SECONDS < e → pr ∈ s.signers → sg ∈ s.signers →
      s.signerCount - 1 < s.threshold →
      propose_signer_change s now pr "remove" sg e =
        .error (.err .ThresholdExceedsSigners)) ∧
    (∀ (s s' : MState) (now pr sg e r : Nat) (ct : String),
      propose_signer_change s now pr ct sg e = .ok (r, s') →
      s'.threshold = s.threshold ∧ s'.signerCount = s.signerCount) ∧
    (∀ (s s' : MState) (now pid ap : Nat),
      approve_signer_change s now pid ap = .ok s' →
      s'.threshold = s.threshold ∧ s'.signerCount = s.signerCount) ∧
    (∀ (s s' : MState) (now pr tok rcp r e : Nat) (am : Int) (rs : String),
      create_proposal s now pr tok rcp am rs e = .ok (r, s') →
      s'.threshold = s.threshold ∧ s'.signerCount = s.signerCount) ∧
    (∀ (s s' : MState) (now pid ap : Nat),
      approve_proposal s now pid ap = .ok s' →
      s'.threshold = s.threshold ∧ s'.signerCount = s.signerCount) ∧
    (∀ (s s' : MState) (pid rv : Nat),
      revoke_approval s pid rv = .ok s' →
      s'.threshold = s.threshold ∧ s'.signerCount = s.signerCount) ∧
    (∀ (s s' : MState) (now pid : Nat) (trOk : Bool),
      execute_proposal s now pid trOk = .ok s' →
      s'.threshold = s.threshold ∧ s'.signerCount = s.signerCount) ∧
    (∀ (s s' : MState) (now pid : Nat) (p : SignerChangeProposal),
      execute_signer_change s now pid = .ok s' →
      getKey s.scProposals pid = some p →
      s'.threshold = s.threshold ∧
      (p.change_type = "add" → s.threshold ≤ s.signerCount →
        s.threshold ≤ s'.signerCount) ∧
      (p.change_type = "remove" → s.threshold ≤ s.signerCount - 1 →
        s.threshold ≤ s'.signerCount) ∧
      (p.change_type ≠ "add" → p.change_type ≠ "remove" →
        s'.signerCount = s.signerCount)) := by
  refine ⟨?_, ?_, ?_, ?_, ?_, ?_, ?_, ?_, ?_⟩
  · intro s s' sg th h
    obtain ⟨-, h1, h2, -, rfl⟩ := initContract_ok h
    exact ⟨h1, h2⟩
  · intro s now pr sg e hinit h1 h2 hpr hsg hth
    simp [propose_signer_change, hinit, h1, h2, hpr, hsg, hth]
  · intro s s' now pr sg e r ct h
    obtain ⟨-, -, -, -, -, -, -, -, -, rfl⟩ := propose_signer_change_ok h
    exact ⟨rfl, rfl⟩
  · intro s s' now pid ap h
    obtain ⟨prop, -, -, -, -, -, -, rfl⟩ := approve_signer_change_ok h
    exact ⟨rfl, rfl⟩
  · intro s s' now pr tok rcp r e am rs h
    obtain ⟨-, -, -, -, -, -, rfl⟩ := create_proposal_ok h
    exact ⟨rfl, rfl⟩
  · intro s s' now pid ap h
    obtain ⟨prop, -, -, -, -, -, -, rfl⟩ := approve_proposal_ok h
    exact ⟨rfl, rfl⟩
  · intro s s' pid rv h
    obtain ⟨prop, l1, -, -, -, -, -, rfl⟩ := revoke_approval_ok h
    exact ⟨rfl, rfl⟩
  · intro s s' now pid trOk h
    obtain ⟨prop, -, -, -, -, -, -, rfl⟩ := execute_proposal_ok h
    exact ⟨rfl, rfl⟩
  · intro s s' now pid p h hp
    obtain ⟨prop, hprop, -, -, -, -, rfl⟩ := execute_signer_change_ok h
    have hpp : prop = p := by
      rw [hprop] at hp
      exact Option.some.inj hp
    subst hpp
    refine ⟨rfl, ?_, ?_, ?_⟩
    · intro hadd hle
      simp [hadd]
      omega
    · intro hrm hle
      have hna : prop.change_type ≠ "add" := by simp [hrm]
      simp [hrm, hna]
      omega
    · intro hna hnr
      simp [hna, hnr]

theorem C1_witness : 1 ≤ wInit.threshold ∧ wInit.threshold ≤ wInit.signerCount :=
  C1_amended_invariant.1 emptyState wInit [0, 1, 2] 2 (by rfl)

/-- C4 counterexample: three signers approve transfer proposal 1, then
signer 2 is removed by an executed signer-change; the approval count of
proposal 1 is then 3 while the signer count is 2, so the approval count
of a proposal can exceed the current signer count; every call in the
trace succeeds. -/
theorem C4_counterexample :
    (do
      let s1 ← initContract emptyState [0, 1, 2] 1
      let r1 ← create_proposal s1 0 0 5 6 1 "x" 3600
      let s2 ← approve_proposal r1.2 0 1 0
      let s3 ← approve_proposal s2 0 1 1
      let s4 ← approve_proposal s3 0 1 2
      let r2 ← propose_signer_change s4 0 0 "remove" 2 3600
      let s5 ← approve_signer_change r2.2 0 2 0
      let s6 ← execute_signer_change s5 0 2
      pure (((getKey s6.proposalApprovals 1).getD []).length, s6.signerCount) :
        Except CallError (Nat × Nat)) = .ok (3, 2) := by rfl

/-- C4 amended: a signer with an existing approval entry always gets the
already-approved error kind on a second approve (for both proposal
kinds); a successful approve requires the approver to be a current
signer; and every call preserves the pairwise distinctness of the
signers in every stored approval list, so an approval list never holds
two entries for one signer (the count can still exceed the current
signer count once signers are removed, as the counterexample shows). -/
theorem C4_amended_approvals :
    (∀ (s : MState) (now pid ap : Nat) (p : Proposal),
      s.initialized = true → ap ∈ s.signers →
      getKey s.proposals pid = some p → pid ∉ s.proposalExecuted →
      ¬ p.expires_at < now →
      (∃ a ∈ (getKey s.proposalApprovals pid).getD [], a.signer = ap) →
      approve_proposal s now pid ap = .error (.err .AlreadyApproved)) ∧
    (∀ (s : MState) (now pid ap : Nat) (p : SignerChangeProposal),
      s.initialized = true → ap ∈ s.signers →
      getKey s.scProposals pid = some p → pid ∉ s.scExecuted →
      ¬ p.expires_at < now →
      (∃ a ∈ (getKey s.scApprovals pid).getD [], a.signer = ap) →
      approve_signer_change s now pid ap =
        .error (.err .SignerChangeAlreadyApproved)) ∧
    (∀ (s s' : MState) (now pid ap : Nat),
      approve_proposal s now pid ap = .ok s' → ap ∈ s.signers) ∧
    (∀ (op : Op) (s : MState),
      (∀ pid l, getKey s.proposalApprovals pid = some l →
        (l.map ProposalApproval.signer).Nodup) →
      (∀ pid l, getKey s.scApprovals pid = some l →
        (l.map SignerChangeApproval.signer).Nodup) →
      (∀ pid l, getKey (stepOp s op).proposalApprovals pid = some l →
        (l.map ProposalApproval.signer).Nodup) ∧
      (∀ pid l, getKey (stepOp s op).scApprovals pid = some l →
        (l.map SignerChangeApproval.signer).Nodup)) := by
  refine ⟨?_, ?_, ?_, ?_⟩
  · intro s now pid ap p hinit hap hp hex hexp hmem
    obtain ⟨a, ha, har⟩ := hmem
    have hany : (((getKey s.proposalApprovals pid).getD []).any
        (fun x => x.signer = ap)) = true :=
      List.any_eq_true.mpr ⟨a, ha, by simp [har]⟩
    simp [approve_proposal, hinit, hap, hp, hex, hexp, hany]
  · intro s now pid ap p hinit hap hp hex hexp hmem
    obtain ⟨a, ha, har⟩ := hmem
    have hany : (((getKey s.scApprovals pid).getD []).any
        (fun x => x.signer = ap)) = true :=
      List.any_eq_true.mpr ⟨a, ha, by simp [har]⟩
    simp [approve_signer_change, hinit, hap, hp, hex, hexp, hany]
  · intro s s' now pid ap h
    obtain ⟨prop, -, -, hap, -, -, -, -⟩ := approve_proposal_ok h
    exact hap
  · intro op s htr hsc
    unfold stepOp
    cases h : applyOp s op with
    | error e => exact ⟨htr, hsc⟩
    | ok s1 =>
      show (∀ pid l, getKey s1.proposalApprovals pid = some l →
          (l.map ProposalApproval.signer).Nodup) ∧
        (∀ pid l, getKey s1.scApprovals pid = some l →
          (l.map SignerChangeApproval.signer).Nodup)
      cases op with
      | initOp sg th =>
        obtain ⟨-, -, -, -, rfl⟩ := initContract_ok h
        exact ⟨htr, hsc⟩
      | proposeScOp now pr ct sg e =>
        obtain ⟨r, hx⟩ := map_snd_ok h
        obtain ⟨-, -, -, -, -, -, -, -, -, rfl⟩ := propose_signer_change_ok hx
        refine ⟨htr, ?_⟩
        intro pid l hl
        by_cases hpid : s.proposalCount + 1 = pid
        · subst hpid
          rw [getKey_setKey_self] at hl
          cases hl
          simp
        · rw [getKey_setKey_ne _ _ _ _ hpid] at hl
          exact hsc pid l hl
      | approveScOp now pid2 ap =>
        obtain ⟨prop, -, -, -, -, -, hfresh, rfl⟩ := approve_signer_change_ok h
        refine ⟨htr, ?_⟩
        intro pid l hl
        by_cases hpid : pid2 = pid
        · subst hpid
          rw [getKey_setKey_self] at hl
          cases hl
          have hnd : (((getKey s.scApprovals pid2).getD []).map
              SignerChangeApproval.signer).Nodup := by
            cases hget : getKey s.scApprovals pid2 with
            | none => simp [hget]
            | some l0 => simpa [hget] using hsc pid2 l0 hget
          have hnm : ap ∉ ((getKey s.scApprovals pid2).getD []).map
              SignerChangeApproval.signer := by
            intro hcontra
            obtain ⟨a, ha, har⟩ := List.mem_map.mp hcontra
            exact hfresh a ha har
          simpa [List.nodup_append] using ⟨hnd, by simpa using hnm⟩
        · rw [getKey_setKey_ne _ _ _ _ hpid] at hl
          exact hsc pid l hl
      | executeScOp now pid2 =>
        obtain ⟨prop, -, -, -, -, -, rfl⟩ := execute_signer_change_ok h
        exact ⟨htr, hsc⟩
      | createOp now pr tok rcp am rs e =>
        obtain ⟨r, hx⟩ := map_snd_ok h
        obtain ⟨-, -, -, -, -, -, rfl⟩ := create_proposal_ok hx
        refine ⟨?_, hsc⟩
        intro pid l hl
        by_cases hpid : s.proposalCount + 1 = pid
        · subst hpid
          rw [getKey_setKey_self] at hl
          cases hl
          simp
        · rw [getKey_setKey_ne _ _ _ _ hpid] at hl
          exact htr pid l hl
      | approveOp now pid2 ap =>
        obtain ⟨prop, -, -, -, -, -, hfresh, rfl⟩ := approve_proposal_ok h
        refine ⟨?_, hsc⟩
        intro pid l hl
        by_cases hpid : pid2 = pid
        · subst hpid
          rw [getKey_setKey_self] at hl
          cases hl
          have hnd : (((getKey s.proposalApprovals pid2).getD []).map
              ProposalApproval.signer).Nodup := by
            cases hget : getKey s.proposalApprovals pid2 with
            | none => simp [hget]
            | some l0 => simpa [hget] using htr pid2 l0 hget
          have hnm : ap ∉ ((getKey s.proposalApprovals pid2).getD []).map
              ProposalApproval.signer := by
            intro hcontra
            obtain ⟨a, ha, har⟩ := List.mem_map.mp hcontra
            exact hfresh a ha har
          simpa [List.nodup_append] using ⟨hnd, by simpa using hnm⟩
        · rw [getKey_setKey_ne _ _ _ _ hpid] at hl
          exact htr pid l hl
      | revokeOp pid2 rv =>
        obtain ⟨prop, l1, -, -, -, -, hrf, rfl⟩ := revoke_approval_ok h
        refine ⟨?_, hsc⟩
        intro pid l hl
        by_cases hpid : pid2 = pid
        · subst hpid
          rw [getKey_setKey_self] at hl
          cases hl
          obtain ⟨pre, entry, post, hdec, -, -, hl1⟩ := removeFirst_eq_some hrf
          have hnd : (((getKey s.proposalApprovals pid2).getD []).map
              ProposalApproval.signer).Nodup := by
            cases hget : getKey s.proposalApprovals pid2 with
            | none => simp [hget]
            | some l0 => simpa [hget] using htr pid2 l0 hget
          rw [hdec] at hnd
          subst hl1
          have hsub : (pre ++ post).Sublist (pre ++ entry :: post) :=
            (List.sublist_cons_self entry post).append_left pre
          exact (hnd.sublist (hsub.map ProposalApproval.signer))
        · rw [getKey_setKey_ne _ _ _ _ hpid] at hl
          exact htr pid l hl
      | executeOp now pid2 trOk =>
        obtain ⟨prop, -, -, -, -, -, -, rfl⟩ := execute_proposal_ok h
        exact ⟨htr, hsc⟩

theorem C4_witness : approve_proposal wApproved1 0 1 0 = .error (.err .AlreadyApproved) :=
  C4_amended_approvals.1 wApproved1 0 1 0
    { id := 1, proposer := 0, token_address := 5, recipient := 6,
      amount := 1000, reason := "pay", created_at := 0, expires_at := 3600,
      executed := false }
    (by decide) (by decide) (by decide) (by decide) (by decide) (by decide)

/-- C5 counterexample: the id counter is shared between the two proposal
kinds: after one successful propose_signer_change, the first
create_proposal of the sequence returns 2, not 1. -/
theorem C5_counterexample :
    (do
      let s1 ← initContract emptyState [0] 1
      let r1 ← propose_signer_change s1 0 0 "add" 1 3600
      let r2 ← create_proposal r1.2 0 0 5 6 1 "x" 3600
      pure r2.1 : Except CallError Nat) = .ok 2 := by rfl

/-- C5 amended: transfer and signer-change proposal ids are drawn from
one shared counter starting at 0: every successful create_proposal or
propose_signer_change returns counter + 1 and advances the counter, no
call ever decreases the counter, and in any state where all stored ids
are at most the counter (true from the empty state on) the returned id
carries no existing proposal of either kind, so ids are never reused;
the first create_proposal returns 1 only when no signer-change proposal
was created before it. -/
theorem C5_amended_ids :
    (∀ (s s' : MState) (now pr tok rcp r e : Nat) (am : Int) (rs : String),
      create_proposal s now pr tok rcp am rs e = .ok (r, s') →
      r = s.proposalCount + 1 ∧ s'.proposalCount = s.proposalCount + 1) ∧
    (∀ (s s' : MState) (now pr sg e r : Nat) (ct : String),
      propose_signer_change s now pr ct sg e = .ok (r, s') →
      r = s.proposalCount + 1 ∧ s'.proposalCount = s.proposalCount + 1) ∧
    (∀ (s : MState) (op : Op),
      s.proposalCount ≤ (stepOp s op).proposalCount) ∧
    (∀ (s s' : MState) (now pr tok rcp r e : Nat) (am : Int) (rs : String),
      IdsBounded s → create_proposal s now pr tok rcp am rs e = .ok (r, s') →
      getKey s.proposals r = none ∧ getKey s.scProposals r = none ∧
      IdsBounded s') ∧
    (∀ (s s' : MState) (now pr sg e r : Nat) (ct : String),
      IdsBounded s → propose_signer_change s now pr ct sg e = .ok (r, s') →
      getKey s.proposals r = none ∧ getKey s.scProposals r = none ∧
      IdsBounded s') ∧
    IdsBounded emptyState := by
  have hcount : ∀ (s : MState) (op : Op),
      s.proposalCount ≤ (stepOp s op).proposalCount := by
    intro s op
    unfold stepOp
    cases h : applyOp s op with
    | error e => exact le_refl _
    | ok s1 =>
      show s.proposalCount ≤ s1.proposalCount
      cases op with
      | initOp sg th =>
        obtain ⟨-, -, -, -, rfl⟩ := initContract_ok h
        exact le_refl _
      | proposeScOp now pr ct sg e =>
        obtain ⟨r, hx⟩ := map_snd_ok h
        obtain ⟨-, -, -, -, -, -, -, -, -, rfl⟩ := propose_signer_change_ok hx
        exact Nat.le_succ _
      | approveScOp now pid2 ap =>
        obtain ⟨prop, -, -, -, -, -, -, rfl⟩ := approve_signer_change_ok h
        exact le_refl _
      | executeScOp now pid2 =>
        obtain ⟨prop, -, -, -, -, -, rfl⟩ := execute_signer_change_ok h
        exact le_refl _
      | createOp now pr tok rcp am rs e =>
        obtain ⟨r, hx⟩ := map_snd_ok h
        obtain ⟨-, -, -, -, -, -, rfl⟩ := create_proposal_ok hx
        exact Nat.le_succ _
      | approveOp now pid2 ap =>
        obtain ⟨prop, -, -, -, -, -, -, rfl⟩ := approve_proposal_ok h
        exact le_refl _
      | revokeOp pid2 rv =>
        obtain ⟨prop, l1, -, -, -, -, -, rfl⟩ := revoke_approval_ok h
        exact le_refl _
      | executeOp now pid2 trOk =>
        obtain ⟨prop, -, -, -, -, -, -, rfl⟩ := execute_proposal_ok h
        exact le_refl _
  refine ⟨?_, ?_, hcount, ?_, ?_, ?_⟩
  · intro s s' now pr tok rcp r e am rs h
    obtain ⟨-, -, -, -, -, hr, rfl⟩ := create_proposal_ok h
    exact ⟨hr, rfl⟩
  · intro s s' now pr sg e r ct h
    obtain ⟨-, -, -, -, -, -, -, -, hr, rfl⟩ := propose_signer_change_ok h
    exact ⟨hr, rfl⟩
  · intro s s' now pr tok rcp r e am rs hb h
    obtain ⟨-, -, -, -, -, hr, rfl⟩ := create_proposal_ok h
    subst hr
    have hstep : stepOp s (Op.createOp now pr tok rcp am rs e) =
        { s with
          proposalCount := s.proposalCount + 1,
          proposals := setKey s.proposals (s.proposalCount + 1)
            { id := s.proposalCount + 1, proposer := pr, token_address := tok,
              recipient := rcp, amount := am, reason := rs, created_at := now,
              expires_at := now + e, executed := false },
          proposalApprovals := setKey s.proposalApprovals (s.proposalCount + 1) [] } := by
      simp [stepOp, applyOp, h, Except.map]
    refine ⟨getKey_eq_none ?_, getKey_eq_none ?_, ?_⟩
    · intro kv hkv
      have := hb.1 kv hkv
      omega
    · intro kv hkv
      have := hb.2 kv hkv
      omega
    · have := stepOp_IdsBounded (Op.createOp now pr tok rcp am rs e) hb
      rwa [hstep] at this
  · intro s s' now pr sg e r ct hb h
    obtain ⟨-, -, -, -, -, -, -, -, hr, rfl⟩ := propose_signer_change_ok h
    subst hr
    have hstep : stepOp s (Op.proposeScOp now pr ct sg e) =
        { s with
          proposalCount := s.proposalCount + 1,
          scProposals := setKey s.scProposals (s.proposalCount + 1)
            { id := s.proposalCount + 1, proposer := pr, change_type := ct,
              signer := sg, created_at := now, expires_at := now + e,
              executed := false },
          scApprovals := setKey s.scApprovals (s.proposalCount + 1) [] } := by
      simp [stepOp, applyOp, h, Except.map]
    refine ⟨getKey_eq_none ?_, getKey_eq_none ?_, ?_⟩
    · intro kv hkv
      have := hb.1 kv hkv
      omega
    · intro kv hkv
      have := hb.2 kv hkv
      omega
    · have := stepOp_IdsBounded (Op.proposeScOp now pr ct sg e) hb
      rwa [hstep] at this
  · exact ⟨by simp [emptyState], by simp [emptyState]⟩

theorem C5_witness :
    (1 : Nat) = wInit.proposalCount + 1 ∧
    wCreated.proposalCount = wInit.proposalCount + 1 :=
  C5_amended_ids.1 wInit wCreated 0 0 5 6 1 3600 1000 "pay" (by rfl)

/-- C6 counterexample: signer 1 approves proposal 1 and is then removed
from the registry by an executed signer-change; revoking the still
existing approval entry on the existing, unexecuted proposal then fails
with UnknownSigner, a kind outside the set stated by the claim. -/
theorem C6_counterexample :
    (do
      let s1 ← initContract emptyState [0, 1, 2] 1
      let r1 ← create_proposal s1 0 0 5 6 1 "x" 3600
      let s2 ← approve_proposal r1.2 0 1 1
      let r2 ← propose_signer_change s2 0 0 "remove" 1 3600
      let s3 ← approve_signer_change r2.2 0 2 0
      let s4 ← execute_signer_change s3 0 2
      revoke_approval s4 1 1 : Except CallError MState) =
    .error (.err .UnknownSigner) := by rfl

/-- C6 amended: revoke_approval fails only with NotInitialized,
UnknownSigner (revoker not a current signer), ProposalNotFound,
ProposalAlreadyExecuted, or SignerNotFound (revoker never approved); and
for every existing unexecuted proposal where the revoker is a current
signer and holds an approval entry, it succeeds and removes exactly the
first entry for that signer, keeping the remaining entries in insertion
order. -/
theorem C6_amended_revoke :
    (∀ (s : MState) (pid rv : Nat) (e : CallError),
      revoke_approval s pid rv = .error e →
      e = .err .NotInitialized ∨ e = .err .UnknownSigner ∨
      e = .err .ProposalNotFound ∨ e = .err .ProposalAlreadyExecuted ∨
      e = .err .SignerNotFound) ∧
    (∀ (s : MState) (pid rv : Nat) (p : Proposal),
      s.initialized = true → rv ∈ s.signers →
      getKey s.proposals pid = some p → pid ∉ s.proposalExecuted →
      (∃ a ∈ (getKey s.proposalApprovals pid).getD [], a.signer = rv) →
      ∃ pre entry post,
        (getKey s.proposalApprovals pid).getD [] = pre ++ entry :: post ∧
        entry.signer = rv ∧ (∀ b ∈ pre, b.signer ≠ rv) ∧
        revoke_approval s pid rv =
          .ok { s with proposalApprovals := setKey s.proposalApprovals pid (pre ++ post) }) := by
  constructor
  · intro s pid rv e h
    unfold revoke_approval at h
    repeat' split at h
    all_goals cases h
    all_goals tauto
  · intro s pid rv p hinit hrv hp hex hmem
    obtain ⟨a, ha, har⟩ := hmem
    obtain ⟨l1, hl1⟩ := removeFirst_mem ⟨a, ha, har⟩
    obtain ⟨pre, entry, post, hdec, hes, hpre, hl1eq⟩ := removeFirst_eq_some hl1
    subst hl1eq
    refine ⟨pre, entry, post, hdec, hes, hpre, ?_⟩
    simp [revoke_approval, hinit, hrv, hp, hex, hl1]

theorem C6_witness :
    ∃ pre entry post,
      (getKey wApproved1.proposalApprovals 1).getD [] = pre ++ entry :: post ∧
      entry.signer = 0 ∧ (∀ b ∈ pre, b.signer ≠ 0) ∧
      revoke_approval wApproved1 1 0 =
        .ok { wApproved1 with proposalApprovals := setKey wApproved1.proposalApprovals 1 (pre ++ post) } :=
  C6_amended_revoke.2 wApproved1 1 0
    { id := 1, proposer := 0, token_address := 5, recipient := 6,
      amount := 1000, reason := "pay", created_at := 0, expires_at := 3600,
      executed := false }
    (by decide) (by decide) (by decide) (by decide) (by decide)

/-- C7 counterexample: after initialization, get_proposal on an id with
no stored transfer proposal does not return a value and does not fail
with NotInitialized: the source unwraps the missing storage value, a
panic modelled as unwrapPanic. -/
theorem C7_counterexample :
    (do
      let s1 ← initContract emptyState [0] 1
      get_proposal s1 5 : Except CallError Proposal) = .error .unwrapPanic := by
  rfl

/-- C7 amended: before initialization every read-only entry point fails
with NotInitialized; after initialization every read-only entry point
returns a value for every input, except get_proposal and
get_signer_change_proposal, which panic (unwrap of a missing storage
value) when no proposal of that kind with the given id exists, and
return the stored proposal otherwise. -/
theorem C7_amended_getters :
    (∀ (s : MState) (pid sg : Nat), s.initialized = true →
      (∃ v, threshold s = .ok v) ∧ (∃ v, signer_count s = .ok v) ∧
      (∃ v, nonce s = .ok v) ∧ (∃ v, is_signer s sg = .ok v) ∧
      (∃ v, get_proposal_approvals s pid = .ok v) ∧
      (∃ v, is_proposal_executed s pid = .ok v) ∧
      (∃ v, get_proposal_count s = .ok v) ∧
      (∃ v, get_signer_change_approvals s pid = .ok v) ∧
      (∃ v, is_signer_change_executed s pid = .ok v) ∧
      (∀ p, getKey s.proposals pid = some p → get_proposal s pid = .ok p) ∧
      (getKey s.proposals pid = none →
        get_proposal s pid = .error .unwrapPanic) ∧
      (∀ p, getKey s.scProposals pid = some p →
        get_signer_change_proposal s pid = .ok p) ∧
      (getKey s.scProposals pid = none →
        get_signer_change_proposal s pid = .error .unwrapPanic)) ∧
    (∀ (s : MState) (pid sg : Nat), s.initialized = false →
      threshold s = .error (.err .NotInitialized) ∧
      signer_count s = .error (.err .NotInitialized) ∧
      nonce s = .error (.err .NotInitialized) ∧
      is_signer s sg = .error (.err .NotInitialized) ∧
      get_proposal s pid = .error (.err .NotInitialized) ∧
      get_proposal_approvals s pid = .error (.err .NotInitialized) ∧
      is_proposal_executed s pid = .error (.err .NotInitialized) ∧
      get_proposal_count s = .error (.err .NotInitialized) ∧
      get_signer_change_proposal s pid = .error (.err .NotInitialized) ∧
      get_signer_change_approvals s pid = .error (.err .NotInitialized) ∧
      is_signer_change_executed s pid = .error (.err .NotInitialized)) := by
  constructor
  · intro s pid sg hinit
    refine ⟨⟨s.threshold, by simp [threshold, hinit]⟩,
      ⟨s.signerCount, by simp [signer_count, hinit]⟩,
      ⟨s.nonce, by simp [nonce, hinit]⟩,
      ⟨decide (sg ∈ s.signers), by simp [is_signer, hinit]⟩,
      ⟨(getKey s.proposalApprovals pid).getD [],
        by simp [get_proposal_approvals, hinit]⟩,
      ⟨decide (pid ∈ s.proposalExecuted), by simp [is_proposal_executed, hinit]⟩,
      ⟨s.proposalCount, by simp [get_proposal_count, hinit]⟩,
      ⟨(getKey s.scApprovals pid).getD [],
        by simp [get_signer_change_approvals, hinit]⟩,
      ⟨decide (pid ∈ s.scExecuted), by simp [is_signer_change_executed, hinit]⟩,
      ?_, ?_, ?_, ?_⟩
    · intro p hp
      simp [get_proposal, hinit, hp]
    · intro hp
      simp [get_proposal, hinit, hp]
    · intro p hp
      simp [get_signer_change_proposal, hinit, hp]
    · intro hp
      simp [get_signer_change_proposal, hinit, hp]
  · intro s pid sg hinit
    exact ⟨by simp [threshold, hinit], by simp [signer_count, hinit],
      by simp [nonce, hinit], by simp [is_signer, hinit],
      by simp [get_proposal, hinit], by simp [get_proposal_approvals, hinit],
      by simp [is_proposal_executed, hinit], by simp [get_proposal_count, hinit],
      by simp [get_signer_change_proposal, hinit],
      by simp [get_signer_change_approvals, hinit],
      by simp [is_signer_change_executed, hinit]⟩

theorem C7_witness : ∃ v, threshold wInit = .ok v :=
  (C7_amended_getters.1 wInit 5 7 (by decide)).1

end Multisig
